import Mathlib

/-!
Verification of the multiplayer world client in src/game.js.

The embedding is a shallow model of the GameClient class: its mutable fields
become a GameState record, JavaScript Map objects become association lists
with insertion-order semantics, numbers become rationals, and the message
handlers become pure state-transition functions. setTimeout callbacks that
delete emote entries are modelled as pending timers carried in the state; a
query at time t first fires every timer whose deadline has passed, exactly as
the event loop would have before the query runs.
-/

namespace GameJS

/-- One player record as carried by the server messages and stored in
the players Map (game.js stores the message objects unchanged). -/
structure Player where
  id : String
  username : String
  x : ℚ
  y : ℚ
  facing : String
  avatar : String
  animationFrame : ℕ
deriving Repr, DecidableEq

/-- One drawable frame handle: an Image object, reduced to the fields
drawPlayer reads (complete, width, height). -/
structure Frame where
  complete : Bool
  width : ℚ
  height : ℚ
deriving Repr, DecidableEq

/-- The images table built by loadAvatarImage: one ordered frame list per
stored direction (north, south, east; west has no stored frames). -/
structure AvatarImages where
  north : List Frame
  south : List Frame
  east : List Frame
deriving Repr, DecidableEq

/-- A raw avatar payload as it arrives from the server: base64 frame data
per direction (the data itself is opaque here). -/
structure RawAvatar where
  name : String
  framesNorth : List String
  framesSouth : List String
  framesEast : List String
deriving Repr, DecidableEq

/-- An entry of the avatars Map: either the raw message object (before
loadAvatarImage ran) or the processed record with an images table. -/
inductive StoredAvatar where
  | raw (a : RawAvatar)
  | loaded (name : String) (images : AvatarImages)
deriving Repr, DecidableEq

/-- The jump emote record stored in playerEmotes. -/
structure EmoteEffect where
  type : String
  startTime : ℤ
  duration : ℤ
  bounces : ℕ
deriving Repr, DecidableEq

/-- A pending setTimeout callback scheduled by startEmoteAnimation:
at fireTime it deletes the playerEmotes entry of playerId. -/
structure EmoteTimer where
  fireTime : ℤ
  playerId : String
deriving Repr, DecidableEq

/-- Lookup in a JavaScript Map modelled as an association list
(first entry with the key; Maps never hold a key twice). -/
def mapGet (m : List (String × α)) (k : String) : Option α :=
  match m with
  | [] => none
  | kv :: rest => if kv.1 = k then some kv.2 else mapGet rest k

/-- Map.set: replace the entry in place when the key exists,
otherwise append (insertion order preserved). -/
def mapSet (m : List (String × α)) (k : String) (v : α) : List (String × α) :=
  match m with
  | [] => [(k, v)]
  | kv :: rest => if kv.1 = k then (k, v) :: rest else kv :: mapSet rest k v

/-- Map.delete: remove the entry with the key. -/
def mapDelete (m : List (String × α)) (k : String) : List (String × α) :=
  match m with
  | [] => []
  | kv :: rest => if kv.1 = k then mapDelete rest k else kv :: mapDelete rest k

/-- Folding Map.set over a list of entries, as the for-of loops over
Object.entries do in the join and move handlers. -/
def upsertAll (m : List (String × α)) (ps : List (String × α)) : List (String × α) :=
  ps.foldl (fun acc kv => mapSet acc kv.1 kv.2) m

@[simp] theorem mapGet_nil (k : String) : mapGet ([] : List (String × α)) k = none := rfl

@[simp] theorem mapGet_mapSet_self (m : List (String × α)) (k : String) (v : α) :
    mapGet (mapSet m k v) k = some v := by
  induction m with
  | nil => simp [mapSet, mapGet]
  | cons hd tl ih =>
    by_cases h : hd.1 = k
    · simp [mapSet, mapGet, h]
    · simp [mapSet, mapGet, h, ih]

theorem mapGet_mapSet_ne (m : List (String × α)) (k k2 : String) (v : α) (h : k2 ≠ k) :
    mapGet (mapSet m k v) k2 = mapGet m k2 := by
  induction m with
  | nil => simp only [mapSet, mapGet, if_neg (fun e : k = k2 => h e.symm)]
  | cons hd tl ih =>
    simp only [mapSet]
    by_cases hh : hd.1 = k
    · rw [if_pos hh]
      simp only [mapGet]
      rw [if_neg (fun e : k = k2 => h e.symm),
          if_neg (show ¬ hd.1 = k2 by rw [hh]; exact fun e => h e.symm)]
    · rw [if_neg hh]
      simp only [mapGet]
      rw [ih]

@[simp] theorem mapGet_mapDelete_self (m : List (String × α)) (k : String) :
    mapGet (mapDelete m k) k = none := by
  induction m with
  | nil => simp [mapDelete]
  | cons hd tl ih =>
    simp only [mapDelete]
    by_cases h : hd.1 = k
    · rw [if_pos h]; exact ih
    · rw [if_neg h]
      simp only [mapGet]
      rw [if_neg h]
      exact ih

theorem mapGet_mapDelete_ne (m : List (String × α)) (k k2 : String) (h : k2 ≠ k) :
    mapGet (mapDelete m k) k2 = mapGet m k2 := by
  induction m with
  | nil => simp [mapDelete]
  | cons hd tl ih =>
    simp only [mapDelete]
    by_cases hh : hd.1 = k
    · rw [if_pos hh]
      simp only [mapGet]
      rw [if_neg (show ¬ hd.1 = k2 by rw [hh]; exact fun e => h e.symm)]
      exact ih
    · rw [if_neg hh]
      simp only [mapGet]
      rw [ih]

theorem lookup_eq_none_of_not_mem (ps : List (String × α)) (k : String)
    (h : k ∉ ps.map Prod.fst) : List.lookup k ps = none := by
  induction ps with
  | nil => rfl
  | cons hd tl ih =>
    simp only [List.map_cons, List.mem_cons] at h
    push_neg at h
    have hb : (k == hd.1) = false := by simp [h.1]
    simp [List.lookup, hb, ih h.2]

/-- Characterization of a bulk upsert via the first match in the event list;
the Nodup hypothesis is the Object.entries guarantee that keys are unique. -/
theorem mapGet_upsertAll (m : List (String × α)) (ps : List (String × α))
    (hnd : (ps.map Prod.fst).Nodup) (k : String) :
    mapGet (upsertAll m ps) k = (List.lookup k ps).or (mapGet m k) := by
  induction ps generalizing m with
  | nil => simp [upsertAll, List.lookup]
  | cons hd tl ih =>
    rw [List.map_cons, List.nodup_cons] at hnd
    have step : upsertAll m (hd :: tl) = upsertAll (mapSet m hd.1 hd.2) tl := rfl
    rw [step, ih _ hnd.2]
    by_cases hk : hd.1 = k
    · have hlk : List.lookup k tl = none :=
        lookup_eq_none_of_not_mem tl k (by rw [← hk]; exact hnd.1)
      have hb : (k == hd.1) = true := by simp [hk.symm]
      rw [hlk, Option.none_or, hk, mapGet_mapSet_self]
      simp [List.lookup, hb]
    · have hk2 : ¬ k = hd.1 := fun e => hk e.symm
      have hb : (k == hd.1) = false := by simp [hk2]
      rw [mapGet_mapSet_ne m hd.1 k hd.2 hk2]
      simp [List.lookup, hb]

/-- The mutable fields of the GameClient instance (canvas, context and the
WebSocket handle are I/O collaborators and carry no reconciler state).
pendingTimers holds the setTimeout callbacks scheduled by
startEmoteAnimation that have not fired yet. -/
structure GameState where
  worldWidth : ℚ
  worldHeight : ℚ
  players : List (String × Player)
  avatars : List (String × StoredAvatar)
  myPlayerId : Option String
  myPlayer : Option Player
  playerEmotes : List (String × EmoteEffect)
  cameraX : ℚ
  cameraY : ℚ
  viewportWidth : ℚ
  viewportHeight : ℚ
  pendingTimers : List EmoteTimer
deriving Repr, DecidableEq

/-- State after the constructor and setupCanvas: world 2048 by 2048, empty
registries, camera at the origin, viewport set to the window size. -/
def initialState (vw vh : ℚ) : GameState :=
  { worldWidth := 2048, worldHeight := 2048, players := [], avatars := [],
    myPlayerId := none, myPlayer := none, playerEmotes := [],
    cameraX := 0, cameraY := 0, viewportWidth := vw, viewportHeight := vh,
    pendingTimers := [] }

/-- The clamp applied by updateViewport to one camera axis. -/
def clampCamera (c world viewport : ℚ) : ℚ :=
  max 0 (min c (world - viewport))

/-- updateViewport: clamp the camera position to the world boundaries. -/
def updateViewport (s : GameState) : GameState :=
  { s with cameraX := clampCamera s.cameraX s.worldWidth s.viewportWidth,
           cameraY := clampCamera s.cameraY s.worldHeight s.viewportHeight }

/-- centerViewportOnPlayer: no-op without a local player, otherwise set the
raw offset to the player position minus half the viewport and clamp. -/
def centerViewportOnPlayer (s : GameState) : GameState :=
  match s.myPlayer with
  | none => s
  | some p =>
      updateViewport { s with cameraX := p.x - s.viewportWidth / 2,
                              cameraY := p.y - s.viewportHeight / 2 }

/-- The resize listener: store the new viewport size, then re-clamp. -/
def handleResize (s : GameState) (w h : ℚ) : GameState :=
  updateViewport { s with viewportWidth := w, viewportHeight := h }

/-- worldToScreen: subtract the camera offset. -/
def worldToScreen (s : GameState) (worldX worldY : ℚ) : ℚ × ℚ :=
  (worldX - s.cameraX, worldY - s.cameraY)

/-- screenToWorld: add the camera offset. -/
def screenToWorld (s : GameState) (screenX screenY : ℚ) : ℚ × ℚ :=
  (screenX + s.cameraX, screenY + s.cameraY)

/-- loadAvatarImage builds the processed record: one fresh Image per base64
frame, per stored direction; a fresh Image starts not complete with size 0. -/
def processAvatar (a : RawAvatar) : StoredAvatar :=
  .loaded a.name
    ⟨a.framesNorth.map (fun _ => Frame.mk false 0 0),
     a.framesSouth.map (fun _ => Frame.mk false 0 0),
     a.framesEast.map (fun _ => Frame.mk false 0 0)⟩

/-- loadAvatarImages iterates the avatars Map entries present when the loop
starts, replacing each raw entry by its processed record. Reaching an entry
that was already processed reads the missing frames field and throws a
TypeError; the try-catch around handleServerMessage swallows it, so the
iteration simply stops there and the map keeps its partial update. -/
def loadAvatarsGo (acc : List (String × StoredAvatar)) :
    List (String × StoredAvatar) → List (String × StoredAvatar)
  | [] => acc
  | (_, av) :: rest =>
      match av with
      | .raw a => loadAvatarsGo (mapSet acc a.name (processAvatar a)) rest
      | .loaded _ _ => acc

def loadAvatarImages (s : GameState) : GameState :=
  { s with avatars := loadAvatarsGo s.avatars s.avatars }

/-- The welcome payload of a successful join_game response. -/
structure WelcomeMsg where
  playerId : String
  players : List (String × Player)
  avatars : List (String × RawAvatar)
deriving Repr, DecidableEq

/-- The state after the assignment statements of handleJoinGameSuccess,
just before the camera is recentered and the avatar images are processed:
local id set, event players and avatars upserted into the existing Maps
(nothing is cleared first), myPlayer pointed at the registry entry for the
local id. -/
def joinStateMid (s : GameState) (msg : WelcomeMsg) : GameState :=
  let s1 : GameState :=
    { s with myPlayerId := some msg.playerId,
             players := upsertAll s.players msg.players,
             avatars := upsertAll s.avatars
               (msg.avatars.map (fun kv => (kv.1, StoredAvatar.raw kv.2))) }
  { s1 with myPlayer := mapGet s1.players msg.playerId }

/-- handleJoinGameSuccess: perform the assignments above, recenter the
camera on the local player, then process the avatar images. -/
def handleJoinGameSuccess (s : GameState) (msg : WelcomeMsg) : GameState :=
  loadAvatarImages (centerViewportOnPlayer (joinStateMid s msg))

@[simp] theorem joinStateMid_players (s : GameState) (msg : WelcomeMsg) :
    (joinStateMid s msg).players = upsertAll s.players msg.players := rfl

@[simp] theorem joinStateMid_myPlayerId (s : GameState) (msg : WelcomeMsg) :
    (joinStateMid s msg).myPlayerId = some msg.playerId := rfl

@[simp] theorem joinStateMid_myPlayer (s : GameState) (msg : WelcomeMsg) :
    (joinStateMid s msg).myPlayer
      = mapGet (upsertAll s.players msg.players) msg.playerId := rfl

@[simp] theorem joinStateMid_viewportWidth (s : GameState) (msg : WelcomeMsg) :
    (joinStateMid s msg).viewportWidth = s.viewportWidth := rfl

@[simp] theorem joinStateMid_viewportHeight (s : GameState) (msg : WelcomeMsg) :
    (joinStateMid s msg).viewportHeight = s.viewportHeight := rfl

@[simp] theorem joinStateMid_worldWidth (s : GameState) (msg : WelcomeMsg) :
    (joinStateMid s msg).worldWidth = s.worldWidth := rfl

@[simp] theorem joinStateMid_worldHeight (s : GameState) (msg : WelcomeMsg) :
    (joinStateMid s msg).worldHeight = s.worldHeight := rfl

@[simp] theorem joinStateMid_cameraX (s : GameState) (msg : WelcomeMsg) :
    (joinStateMid s msg).cameraX = s.cameraX := rfl

@[simp] theorem joinStateMid_cameraY (s : GameState) (msg : WelcomeMsg) :
    (joinStateMid s msg).cameraY = s.cameraY := rfl

/-- handlePlayerJoined: upsert the player, store the raw avatar, then
immediately replace it by the processed record (loadAvatarImage).
myPlayer is not touched. -/
def handlePlayerJoined (s : GameState) (p : Player) (av : RawAvatar) : GameState :=
  { s with players := mapSet s.players p.id p,
           avatars := mapSet (mapSet s.avatars av.name (.raw av)) av.name
             (processAvatar av) }

/-- One iteration of the handlePlayersMoved loop: upsert the entry; when the
id is the local id, refresh myPlayer and recenter the camera. The players
update cannot change myPlayerId, so testing the id first is equivalent. -/
def movedStep (s : GameState) (kv : String × Player) : GameState :=
  if s.myPlayerId = some kv.1 then
    centerViewportOnPlayer
      { s with players := mapSet s.players kv.1 kv.2, myPlayer := some kv.2 }
  else
    { s with players := mapSet s.players kv.1 kv.2 }

def handlePlayersMoved (s : GameState) (ps : List (String × Player)) : GameState :=
  ps.foldl movedStep s

/-- handlePlayerLeft: drop the player and any emote entry for it;
myPlayer and myPlayerId are not touched. -/
def handlePlayerLeft (s : GameState) (playerId : String) : GameState :=
  { s with players := mapDelete s.players playerId,
           playerEmotes := mapDelete s.playerEmotes playerId }

/-- startEmoteAnimation: only the jump kind is handled. It overwrites the
playerEmotes entry and schedules a setTimeout that will delete that entry
(unconditionally) 1500 ms later. -/
def startEmoteAnimation (s : GameState) (playerId emoteType : String)
    (now : ℤ) : GameState :=
  if emoteType = "jump" then
    { s with
        playerEmotes := mapSet s.playerEmotes playerId ⟨"jump", now, 1500, 3⟩,
        pendingTimers := s.pendingTimers ++ [⟨now + 1500, playerId⟩] }
  else s

def handlePlayerEmote (s : GameState) (now : ℤ) (playerId emoteType : String) :
    GameState :=
  startEmoteAnimation s playerId emoteType now

/-- The inbound messages dispatched by handleServerMessage. -/
inductive ServerMessage where
  | joinGame (success : Bool) (error : String) (msg : WelcomeMsg)
  | playerJoined (player : Player) (avatar : RawAvatar)
  | playersMoved (players : List (String × Player))
  | playerLeft (playerId : String)
  | emote (playerId : String) (emoteType : String)
  | unknown (action : String)
deriving Repr, DecidableEq

/-- The switch in handleServerMessage. A failed join_game and an unknown
action are only logged. -/
def handleServerMessage (s : GameState) (now : ℤ) : ServerMessage → GameState
  | .joinGame success _ msg =>
      if success then handleJoinGameSuccess s msg else s
  | .playerJoined p av => handlePlayerJoined s p av
  | .playersMoved ps => handlePlayersMoved s ps
  | .playerLeft pid => handlePlayerLeft s pid
  | .emote pid kind => handlePlayerEmote s now pid kind
  | .unknown _ => s

/-- Firing every scheduled emote-expiry callback whose deadline has passed:
each such callback deletes the playerEmotes entry of its player id without
re-checking anything. -/
def fireDueEmoteTimersOn (em : List (String × EmoteEffect))
    (timers : List EmoteTimer) (t : ℤ) : List (String × EmoteEffect) :=
  timers.foldl (fun acc tm => if tm.fireTime ≤ t then mapDelete acc tm.playerId else acc) em

/-- Whether an emote of the given kind is present for the player once all
callbacks due at time t have run. -/
def isActiveAt (s : GameState) (playerId kind : String) (t : ℤ) : Bool :=
  match mapGet (fireDueEmoteTimersOn s.playerEmotes s.pendingTimers t) playerId with
  | some e => e.type == kind
  | none => false

/-- The fallback value handed to getD; indexing in drawPlayer is always in
range so it is never produced. -/
def defaultFrame : Frame := ⟨false, 0, 0⟩

/-- The direction whose frame list drawPlayer reads: west reuses east. -/
def resolvedDirection (p : Player) : String :=
  if p.facing = "west" then "east" else p.facing

/-- The property access avatar.images[direction] on the processed record. -/
def dirLookup (imgs : AvatarImages) (d : String) : Option (List Frame) :=
  if d = "north" then some imgs.north
  else if d = "south" then some imgs.south
  else if d = "east" then some imgs.east
  else none

/-- The culling test at the top of drawPlayer: the screen position lies more
than 50 px outside the viewport. -/
def playerOutOfView (s : GameState) (p : Player) : Prop :=
  (worldToScreen s p.x p.y).1 < -50 ∨
  (worldToScreen s p.x p.y).1 > s.viewportWidth + 50 ∨
  (worldToScreen s p.x p.y).2 < -50 ∨
  (worldToScreen s p.x p.y).2 > s.viewportHeight + 50

instance (s : GameState) (p : Player) : Decidable (playerOutOfView s p) := by
  unfold playerOutOfView
  infer_instance

/-- What one drawPlayer call produces: either nothing, or one sprite draw
(with the west mirroring flag) followed by its username label. -/
inductive DrawResult where
  | skipped
  | drawn (frame : Frame) (flipped : Bool) (drawX drawY width height : ℚ)
      (label : String)
deriving Repr, DecidableEq

def DrawResult.frameUsed : DrawResult → Option Frame
  | .skipped => none
  | .drawn f _ _ _ _ _ _ => some f

def DrawResult.flippedUsed : DrawResult → Option Bool
  | .skipped => none
  | .drawn _ fl _ _ _ _ _ => some fl

/-- The tail of drawPlayer once the resolved frame list is at hand: bail out
on an empty list, select the frame at animationFrame mod frameCount (the
or-0 fallback on animationFrame is the identity on a natural number), bail
out when that handle is not loaded, otherwise emit the draw call, mirrored
when the player faces west. -/
def drawPlayerFromFrames (s : GameState) (p : Player) (frames : List Frame) :
    DrawResult :=
  if frames.length = 0 then .skipped
  else
    let avatarImage := frames.getD (p.animationFrame % frames.length) defaultFrame
    if avatarImage.complete = false then .skipped
    else
      let sp := worldToScreen s p.x p.y
      let w : ℚ := 32
      let h : ℚ := 32 / (avatarImage.width / avatarImage.height)
      if p.facing = "west" then
        .drawn avatarImage true (-sp.1 - w / 2) (sp.2 - h / 2) w h p.username
      else
        .drawn avatarImage false (sp.1 - w / 2) (sp.2 - h / 2) w h p.username

/-- The frame-list lookup step of drawPlayer: an absent list skips. -/
def drawPlayerFromImages (s : GameState) (p : Player) :
    Option (List Frame) → DrawResult
  | none => .skipped
  | some frames => drawPlayerFromFrames s p frames

/-- The avatar lookup step of drawPlayer: a missing Map entry skips, and so
does a raw entry (the raw message object has no images field). -/
def drawPlayerFromAvatar (s : GameState) (p : Player) :
    Option StoredAvatar → DrawResult
  | none => .skipped
  | some (.raw _) => .skipped
  | some (.loaded _ imgs) =>
      drawPlayerFromImages s p (dirLookup imgs (resolvedDirection p))

/-- drawPlayer, as a pure function from the state and one player to the draw
call it emits (or to skipped when it returns early); the steps above compose
in exactly the source order. -/
def drawPlayer (s : GameState) (p : Player) : DrawResult :=
  if playerOutOfView s p then .skipped
  else drawPlayerFromAvatar s p (mapGet s.avatars p.avatar)

theorem drawPlayerFromAvatar_none (s : GameState) (p : Player) :
    drawPlayerFromAvatar s p none = .skipped := rfl

theorem drawPlayerFromAvatar_raw (s : GameState) (p : Player) (a : RawAvatar) :
    drawPlayerFromAvatar s p (some (.raw a)) = .skipped := rfl

theorem drawPlayerFromAvatar_loaded (s : GameState) (p : Player) (nm : String)
    (imgs : AvatarImages) :
    drawPlayerFromAvatar s p (some (.loaded nm imgs)) =
      drawPlayerFromImages s p (dirLookup imgs (resolvedDirection p)) := rfl

theorem drawPlayerFromImages_none (s : GameState) (p : Player) :
    drawPlayerFromImages s p none = .skipped := rfl

theorem drawPlayerFromImages_some (s : GameState) (p : Player)
    (frames : List Frame) :
    drawPlayerFromImages s p (some frames) = drawPlayerFromFrames s p frames := rfl

/-- The outbound click-to-move message: action move with integer target. -/
structure MoveMsg where
  x : ℤ
  y : ℤ
deriving Repr, DecidableEq

/-- Math.round: halves round towards positive infinity. -/
def jsRound (q : ℚ) : ℤ := ⌊q + 1 / 2⌋

/-- sendMoveCommand on a numeric target: nothing is sent on a closed socket,
otherwise the rounded coordinates are sent. -/
def sendMoveCommandXY (wsOpen : Bool) (x y : ℚ) : Option MoveMsg :=
  if wsOpen then some ⟨jsRound x, jsRound y⟩ else none

/-- The canvas click listener: map the screen point to world space and send
a move command only when the target lies within the world boundaries.
The listener mutates no client state. -/
def handleCanvasClick (s : GameState) (wsOpen : Bool) (screenX screenY : ℚ) :
    Option MoveMsg :=
  let wp := screenToWorld s screenX screenY
  if 0 ≤ wp.1 ∧ wp.1 ≤ s.worldWidth ∧ 0 ≤ wp.2 ∧ wp.2 ≤ s.worldHeight then
    sendMoveCommandXY wsOpen wp.1 wp.2
  else none

@[simp] theorem updateViewport_players (s : GameState) :
    (updateViewport s).players = s.players := rfl

@[simp] theorem updateViewport_myPlayer (s : GameState) :
    (updateViewport s).myPlayer = s.myPlayer := rfl

@[simp] theorem updateViewport_myPlayerId (s : GameState) :
    (updateViewport s).myPlayerId = s.myPlayerId := rfl

@[simp] theorem updateViewport_playerEmotes (s : GameState) :
    (updateViewport s).playerEmotes = s.playerEmotes := rfl

@[simp] theorem centerViewportOnPlayer_players (s : GameState) :
    (centerViewportOnPlayer s).players = s.players := by
  rcases hm : s.myPlayer with _ | p <;> simp [centerViewportOnPlayer, hm]

@[simp] theorem centerViewportOnPlayer_myPlayer (s : GameState) :
    (centerViewportOnPlayer s).myPlayer = s.myPlayer := by
  rcases hm : s.myPlayer with _ | p <;> simp [centerViewportOnPlayer, hm]

@[simp] theorem centerViewportOnPlayer_myPlayerId (s : GameState) :
    (centerViewportOnPlayer s).myPlayerId = s.myPlayerId := by
  rcases hm : s.myPlayer with _ | p <;> simp [centerViewportOnPlayer, hm]

@[simp] theorem centerViewportOnPlayer_playerEmotes (s : GameState) :
    (centerViewportOnPlayer s).playerEmotes = s.playerEmotes := by
  rcases hm : s.myPlayer with _ | p <;> simp [centerViewportOnPlayer, hm]

@[simp] theorem loadAvatarImages_players (s : GameState) :
    (loadAvatarImages s).players = s.players := rfl

@[simp] theorem loadAvatarImages_myPlayer (s : GameState) :
    (loadAvatarImages s).myPlayer = s.myPlayer := rfl

@[simp] theorem loadAvatarImages_myPlayerId (s : GameState) :
    (loadAvatarImages s).myPlayerId = s.myPlayerId := rfl

@[simp] theorem loadAvatarImages_cameraX (s : GameState) :
    (loadAvatarImages s).cameraX = s.cameraX := rfl

@[simp] theorem loadAvatarImages_cameraY (s : GameState) :
    (loadAvatarImages s).cameraY = s.cameraY := rfl

theorem clampCamera_nonneg (c w v : ℚ) : 0 ≤ clampCamera c w v :=
  le_max_left 0 _

theorem clampCamera_le (c w v : ℚ) : clampCamera c w v ≤ max 0 (w - v) :=
  max_le_max (le_refl 0) (min_le_right c (w - v))

theorem clampCamera_of_le (c w v : ℚ) (h : w ≤ v) : clampCamera c w v = 0 := by
  unfold clampCamera
  have hm : min c (w - v) ≤ 0 := le_trans (min_le_right _ _) (by linarith)
  exact max_eq_left hm

theorem clampCamera_idem (c w v : ℚ) :
    clampCamera (clampCamera c w v) w v = clampCamera c w v := by
  simp only [clampCamera, min_def, max_def]
  split_ifs <;> linarith

/-- The camera-offset invariant stated by the spec. -/
def cameraClamped (s : GameState) : Prop :=
  0 ≤ s.cameraX ∧ s.cameraX ≤ max 0 (s.worldWidth - s.viewportWidth) ∧
  0 ≤ s.cameraY ∧ s.cameraY ≤ max 0 (s.worldHeight - s.viewportHeight)

instance (s : GameState) : Decidable (cameraClamped s) := by
  unfold cameraClamped
  infer_instance

/-- A local player standing at (2040, 2040), near the world corner. -/
def playerAtCorner : Player := ⟨"p1", "Praise", 2040, 2040, "south", "adventurer", 0⟩

/-- An 800 by 600 viewport with the local player at the corner. -/
def cornerState : GameState :=
  { initialState 800 600 with myPlayer := some playerAtCorner }

/-- A viewport wider than the world, with a camera that starts unclamped. -/
def bigViewportState : GameState :=
  { initialState 4000 600 with cameraX := 37 }

/-- C5: every operation that sets the camera (updateViewport itself, the
resize path, and recentering on a present local player) leaves the offset
within 0 and max 0 (world minus viewport) on each axis; when the viewport is
at least as large as the world on an axis, that offset is exactly 0. -/
theorem claim_C5 :
    (∀ s : GameState, cameraClamped (updateViewport s)) ∧
    (∀ (s : GameState) (w h : ℚ), cameraClamped (handleResize s w h)) ∧
    (∀ (s : GameState) (p : Player), s.myPlayer = some p →
      cameraClamped (centerViewportOnPlayer s)) ∧
    (∀ s : GameState, s.worldWidth ≤ s.viewportWidth →
      (updateViewport s).cameraX = 0) ∧
    (∀ s : GameState, s.worldHeight ≤ s.viewportHeight →
      (updateViewport s).cameraY = 0) := by
  refine ⟨?_, ?_, ?_, ?_, ?_⟩
  · intro s
    exact ⟨clampCamera_nonneg _ _ _, clampCamera_le _ _ _,
      clampCamera_nonneg _ _ _, clampCamera_le _ _ _⟩
  · intro s w h
    exact ⟨clampCamera_nonneg _ _ _, clampCamera_le _ _ _,
      clampCamera_nonneg _ _ _, clampCamera_le _ _ _⟩
  · intro s p h
    have hc : centerViewportOnPlayer s =
        updateViewport { s with cameraX := p.x - s.viewportWidth / 2,
                                cameraY := p.y - s.viewportHeight / 2 } := by
      unfold centerViewportOnPlayer
      rw [h]
    rw [hc]
    exact ⟨clampCamera_nonneg _ _ _, clampCamera_le _ _ _,
      clampCamera_nonneg _ _ _, clampCamera_le _ _ _⟩
  · intro s h
    exact clampCamera_of_le _ _ _ h
  · intro s h
    exact clampCamera_of_le _ _ _ h

/-- C5 witness: recentering on the corner player in an 800 by 600 viewport
yields a clamped offset, and with a 4000 px wide viewport the clamp pins the
x offset to 0. -/
theorem claim_C5_witness :
    cameraClamped (centerViewportOnPlayer cornerState) ∧
    (updateViewport bigViewportState).cameraX = 0 :=
  ⟨claim_C5.2.2.1 cornerState playerAtCorner rfl,
   claim_C5.2.2.2.1 bigViewportState (by norm_num [bigViewportState, initialState])⟩

/-- C6: screenToWorld inverts worldToScreen exactly, for every camera offset
and world point; both are pure functions of the state by construction. -/
theorem claim_C6 (s : GameState) (wx wy : ℚ) :
    screenToWorld s (worldToScreen s wx wy).1 (worldToScreen s wx wy).2 = (wx, wy) := by
  simp [screenToWorld, worldToScreen]

/-- C7: the camera clamp is idempotent as a state transformer, and centering
on an entity at (2040, 2040) in a 2048 by 2048 world with an 800 by 600
viewport yields the clamped offset (1248, 1448), not the raw (1640, 1740). -/
theorem claim_C7 :
    (∀ s : GameState, updateViewport (updateViewport s) = updateViewport s) ∧
    (centerViewportOnPlayer cornerState).cameraX = 1248 ∧
    (centerViewportOnPlayer cornerState).cameraY = 1448 ∧
    ¬ ((centerViewportOnPlayer cornerState).cameraX = 1640 ∧
       (centerViewportOnPlayer cornerState).cameraY = 1740) := by
  have hx : (centerViewportOnPlayer cornerState).cameraX =
      clampCamera (2040 - 800 / 2) 2048 800 := rfl
  have hy : (centerViewportOnPlayer cornerState).cameraY =
      clampCamera (2040 - 600 / 2) 2048 600 := rfl
  have hx2 : (centerViewportOnPlayer cornerState).cameraX = 1248 := by
    rw [hx]; norm_num [clampCamera, min_def, max_def]
  have hy2 : (centerViewportOnPlayer cornerState).cameraY = 1448 := by
    rw [hy]; norm_num [clampCamera, min_def, max_def]
  refine ⟨?_, hx2, hy2, ?_⟩
  · intro s
    simp [updateViewport, clampCamera_idem]
  · intro hc
    rw [hx2] at hc
    exact absurd hc.1 (by norm_num)

/-- C10: a join_game response with success false changes nothing at all in
the client state; the failure is only logged. -/
theorem claim_C10 (s : GameState) (now : ℤ) (err : String) (msg : WelcomeMsg) :
    handleServerMessage s now (.joinGame false err msg) = s := rfl

/-- The spec invariant for the local identity: myPlayer denotes exactly the
registry entry stored under myPlayerId. -/
def localPlayerConsistent (s : GameState) : Prop :=
  ∀ k, s.myPlayerId = some k → s.myPlayer = mapGet s.players k

theorem movedStep_consistent (s : GameState) (kv : String × Player)
    (h : localPlayerConsistent s) : localPlayerConsistent (movedStep s kv) := by
  unfold movedStep
  by_cases hid : s.myPlayerId = some kv.1
  · rw [if_pos hid]
    intro k hk
    rw [centerViewportOnPlayer_myPlayerId] at hk
    rw [centerViewportOnPlayer_myPlayer, centerViewportOnPlayer_players]
    have hk2 : s.myPlayerId = some k := hk
    have hkk : k = kv.1 := by
      rw [hid] at hk2
      exact (Option.some.injEq _ _ ▸ hk2).symm
    show some kv.2 = mapGet (mapSet s.players kv.1 kv.2) k
    rw [hkk, mapGet_mapSet_self]
  · rw [if_neg hid]
    intro k hk
    have hk2 : s.myPlayerId = some k := hk
    have hne : k ≠ kv.1 := fun e => hid (by rw [hk2, e])
    show s.myPlayer = mapGet (mapSet s.players kv.1 kv.2) k
    rw [mapGet_mapSet_ne s.players kv.1 k kv.2 hne]
    exact h k hk2

/-- The registry state reached by joining successfully as p1. -/
def joinedState : GameState :=
  handleServerMessage (initialState 800 600) 0
    (.joinGame true "" ⟨"p1", [("p1", playerAtCorner)], []⟩)

/-- The same player record as the server later re-sends it, with new
coordinates: the replacement object for the same id. -/
def movedCorner : Player := ⟨"p1", "Praise", 99, 77, "north", "adventurer", 2⟩

def rawAdventurer : RawAvatar := ⟨"adventurer", ["n0"], ["s0"], ["e0"]⟩

/-- C3 counterexample: a player_joined event whose id equals the local
identity replaces the registry entry but leaves myPlayer pointing at the old
copy, so the local-player reference no longer denotes the registry entry. -/
theorem claim_C3_counterexample :
    (handleServerMessage joinedState 0 (.playerJoined movedCorner rawAdventurer)).myPlayerId
        = some "p1" ∧
    (handleServerMessage joinedState 0 (.playerJoined movedCorner rawAdventurer)).myPlayer
        = some playerAtCorner ∧
    mapGet (handleServerMessage joinedState 0
        (.playerJoined movedCorner rawAdventurer)).players "p1" = some movedCorner ∧
    (handleServerMessage joinedState 0 (.playerJoined movedCorner rawAdventurer)).myPlayer
        ≠ mapGet (handleServerMessage joinedState 0
            (.playerJoined movedCorner rawAdventurer)).players "p1" := by
  refine ⟨rfl, rfl, rfl, ?_⟩
  intro hc
  have : some playerAtCorner = some movedCorner := hc
  simp [playerAtCorner, movedCorner] at this

/-- C3 amended: the local-player reference equals the registry entry for the
local identity after every successful join_game, and players_moved preserves
that consistency; but a player_joined event for the local id (and a
player_left for it) does not refresh the reference, so the claim fails
there (see the counterexample). -/
theorem claim_C3_amended :
    (∀ (s : GameState) (msg : WelcomeMsg),
      localPlayerConsistent (handleJoinGameSuccess s msg)) ∧
    (∀ (s : GameState) (ps : List (String × Player)),
      localPlayerConsistent s → localPlayerConsistent (handlePlayersMoved s ps)) := by
  constructor
  · intro s msg k hk
    unfold handleJoinGameSuccess at *
    rw [loadAvatarImages_myPlayerId, centerViewportOnPlayer_myPlayerId] at hk
    rw [loadAvatarImages_myPlayer, centerViewportOnPlayer_myPlayer,
        loadAvatarImages_players, centerViewportOnPlayer_players]
    have hkk : k = msg.playerId := by
      have : some msg.playerId = some k := hk
      exact (Option.some.injEq _ _ ▸ this).symm
    rw [hkk]
    simp
  · intro s ps h
    induction ps generalizing s with
    | nil => exact h
    | cons hd tl ih => exact ih _ (movedStep_consistent _ _ h)

/-- C3 witness: after join_game and a players_moved batch for p1, the
local-player reference equals the registry entry for p1. -/
theorem claim_C3_witness :
    (handlePlayersMoved joinedState [("p1", movedCorner)]).myPlayer
      = mapGet (handlePlayersMoved joinedState [("p1", movedCorner)]).players "p1" := by
  have hj : localPlayerConsistent joinedState :=
    claim_C3_amended.1 (initialState 800 600) ⟨"p1", [("p1", playerAtCorner)], []⟩
  exact claim_C3_amended.2 joinedState [("p1", movedCorner)] hj "p1" rfl

theorem centerViewportOnPlayer_camera_some (s : GameState) (p : Player)
    (h : s.myPlayer = some p) :
    (centerViewportOnPlayer s).cameraX =
      clampCamera (p.x - s.viewportWidth / 2) s.worldWidth s.viewportWidth ∧
    (centerViewportOnPlayer s).cameraY =
      clampCamera (p.y - s.viewportHeight / 2) s.worldHeight s.viewportHeight := by
  unfold centerViewportOnPlayer
  rw [h]
  exact ⟨rfl, rfl⟩

theorem centerViewportOnPlayer_camera_none (s : GameState)
    (h : s.myPlayer = none) :
    (centerViewportOnPlayer s).cameraX = s.cameraX ∧
    (centerViewportOnPlayer s).cameraY = s.cameraY := by
  unfold centerViewportOnPlayer
  rw [h]
  exact ⟨rfl, rfl⟩

/-- A resident player already in the registry before the welcome arrives. -/
def oldResident : Player := ⟨"old", "Resident", 10, 20, "south", "adventurer", 0⟩

/-- A registry that already holds oldResident when join_game succeeds. -/
def preJoinState : GameState :=
  { initialState 800 600 with players := [("old", oldResident)] }

def meJoining : Player := ⟨"me", "Praise", 100, 200, "south", "adventurer", 0⟩

/-- A welcome event that carries only the player me. -/
def welcomeMe : WelcomeMsg := ⟨"me", [("me", meJoining)], []⟩

/-- C1 counterexample: the welcome handler does not clear the registry, so
a pre-existing player absent from the event payload is still present
afterwards, contradicting that the registry contains exactly the players
carried by the event. -/
theorem claim_C1_counterexample :
    mapGet (handleJoinGameSuccess preJoinState welcomeMe).players "old"
        = some oldResident ∧
    List.lookup "old" welcomeMe.players = none :=
  ⟨rfl, rfl⟩

/-- C1 amended: handleJoinGameSuccess does not clear the Maps. The registry
afterwards maps each id to the event entry when the event carries that id
and to the pre-existing entry otherwise; the local identity is set to the
event id, myPlayer is the registry entry for it, and the camera is
recentered (clamped) on that player whenever the entry exists, and is left
unchanged when it does not. The Nodup hypothesis is the Object.entries
guarantee of unique keys. -/
theorem claim_C1_amended (s : GameState) (msg : WelcomeMsg)
    (hnd : (msg.players.map Prod.fst).Nodup) :
    (∀ pid, mapGet (handleJoinGameSuccess s msg).players pid =
        (List.lookup pid msg.players).or (mapGet s.players pid)) ∧
    (handleJoinGameSuccess s msg).myPlayerId = some msg.playerId ∧
    (handleJoinGameSuccess s msg).myPlayer =
        mapGet (handleJoinGameSuccess s msg).players msg.playerId ∧
    (∀ p, (handleJoinGameSuccess s msg).myPlayer = some p →
      (handleJoinGameSuccess s msg).cameraX =
        clampCamera (p.x - s.viewportWidth / 2) s.worldWidth s.viewportWidth ∧
      (handleJoinGameSuccess s msg).cameraY =
        clampCamera (p.y - s.viewportHeight / 2) s.worldHeight s.viewportHeight) ∧
    ((handleJoinGameSuccess s msg).myPlayer = none →
      (handleJoinGameSuccess s msg).cameraX = s.cameraX ∧
      (handleJoinGameSuccess s msg).cameraY = s.cameraY) := by
  have hply : (handleJoinGameSuccess s msg).players = upsertAll s.players msg.players := by
    unfold handleJoinGameSuccess
    rw [loadAvatarImages_players, centerViewportOnPlayer_players, joinStateMid_players]
  have hmyid : (handleJoinGameSuccess s msg).myPlayerId = some msg.playerId := by
    unfold handleJoinGameSuccess
    rw [loadAvatarImages_myPlayerId, centerViewportOnPlayer_myPlayerId,
        joinStateMid_myPlayerId]
  have hmy : (handleJoinGameSuccess s msg).myPlayer = (joinStateMid s msg).myPlayer := by
    unfold handleJoinGameSuccess
    rw [loadAvatarImages_myPlayer, centerViewportOnPlayer_myPlayer]
  have hcx : (handleJoinGameSuccess s msg).cameraX =
      (centerViewportOnPlayer (joinStateMid s msg)).cameraX := by
    unfold handleJoinGameSuccess
    rw [loadAvatarImages_cameraX]
  have hcy : (handleJoinGameSuccess s msg).cameraY =
      (centerViewportOnPlayer (joinStateMid s msg)).cameraY := by
    unfold handleJoinGameSuccess
    rw [loadAvatarImages_cameraY]
  refine ⟨?_, hmyid, ?_, ?_, ?_⟩
  · intro pid
    rw [hply, mapGet_upsertAll s.players msg.players hnd pid]
  · rw [hmy, hply]
    exact joinStateMid_myPlayer s msg
  · intro p hp
    rw [hmy] at hp
    have hcam := centerViewportOnPlayer_camera_some (joinStateMid s msg) p hp
    exact ⟨by rw [hcx, hcam.1]; simp, by rw [hcy, hcam.2]; simp⟩
  · intro hp
    rw [hmy] at hp
    have hcam := centerViewportOnPlayer_camera_none (joinStateMid s msg) hp
    exact ⟨by rw [hcx, hcam.1]; simp, by rw [hcy, hcam.2]; simp⟩

/-- C1 witness: concrete welcome with one event player into a non-empty
registry; the local identity and local-player reference are set as the
amended claim states. -/
theorem claim_C1_witness :
    (handleJoinGameSuccess preJoinState welcomeMe).myPlayerId = some "me" ∧
    (handleJoinGameSuccess preJoinState welcomeMe).myPlayer =
      mapGet (handleJoinGameSuccess preJoinState welcomeMe).players "me" := by
  have h := claim_C1_amended preJoinState welcomeMe (by simp [welcomeMe])
  exact ⟨h.2.1, h.2.2.1⟩

/-- The state after a jump emote for p1 at t = 0 followed by another jump
emote for p1 at t = 1000 (no timer is due in between). -/
def doubleEmoteState : GameState :=
  handleServerMessage
    (handleServerMessage (initialState 800 600) 0 (.emote "p1" "jump"))
    1000 (.emote "p1" "jump")

/-- C2 code bug: the second start overwrites the record and should keep the
effect active until t = 2500, but the first setTimeout callback fires at
t = 1500 and deletes the entry without re-checking the current state, so the
second effect is already gone at t = 1600. The expiry is not a no-op against
the superseded state, contrary to the spec and to the comment in
startEmoteAnimation (auto-remove after the duration of the emote). -/
theorem claim_C2_code_bug :
    mapGet doubleEmoteState.playerEmotes "p1" = some ⟨"jump", 1000, 1500, 3⟩ ∧
    doubleEmoteState.pendingTimers = [⟨1500, "p1"⟩, ⟨2500, "p1"⟩] ∧
    isActiveAt doubleEmoteState "p1" "jump" 1499 = true ∧
    isActiveAt doubleEmoteState "p1" "jump" 1600 = false := by
  decide

theorem fireDue_mapGet_of_not_mem (em : List (String × EmoteEffect))
    (timers : List EmoteTimer) (t : ℤ) (pid : String)
    (h : ∀ tm ∈ timers, tm.playerId ≠ pid) :
    mapGet (fireDueEmoteTimersOn em timers t) pid = mapGet em pid := by
  induction timers generalizing em with
  | nil => rfl
  | cons hd tl ih =>
    have hstep : fireDueEmoteTimersOn em (hd :: tl) t =
        fireDueEmoteTimersOn
          (if hd.fireTime ≤ t then mapDelete em hd.playerId else em) tl t := rfl
    rw [hstep, ih _ (fun tm htm => h tm (List.mem_cons_of_mem hd htm))]
    by_cases hdt : hd.fireTime ≤ t
    · rw [if_pos hdt,
        mapGet_mapDelete_ne em hd.playerId pid (h hd (List.mem_cons_self hd tl)).symm]
    · rw [if_neg hdt]

/-- C4 counterexample: an inbound emote event whose kind is not jump starts
nothing; no effect of that kind is active at t0 + 1499, contrary to the
claim read over every kind. -/
theorem claim_C4_counterexample :
    (handleServerMessage (initialState 800 600) 0 (.emote "p1" "wave")).playerEmotes
        = [] ∧
    isActiveAt (handleServerMessage (initialState 800 600) 0 (.emote "p1" "wave"))
        "p1" "wave" 1499 = false := by
  decide

/-- C4 amended: only the jump kind starts an effect. Handling a jump emote
for an entity with no expiry timer already pending for it stores a jump
effect with duration 1500 starting at t0; it is present at every query time
strictly before t0 + 1500 and gone at t0 + 1500 (the scheduled callback
fires exactly then). An already-pending timer can cut the window short,
see the C2 record. -/
theorem claim_C4_amended (s : GameState) (pid : String) (t0 : ℤ)
    (hto : ∀ tm ∈ s.pendingTimers, tm.playerId ≠ pid) :
    mapGet (handlePlayerEmote s t0 pid "jump").playerEmotes pid
        = some ⟨"jump", t0, 1500, 3⟩ ∧
    (∀ t : ℤ, t < t0 + 1500 →
      isActiveAt (handlePlayerEmote s t0 pid "jump") pid "jump" t = true) ∧
    isActiveAt (handlePlayerEmote s t0 pid "jump") pid "jump" (t0 + 1500) = false := by
  have hem : (handlePlayerEmote s t0 pid "jump").playerEmotes
      = mapSet s.playerEmotes pid ⟨"jump", t0, 1500, 3⟩ := rfl
  have htm : (handlePlayerEmote s t0 pid "jump").pendingTimers
      = s.pendingTimers ++ [⟨t0 + 1500, pid⟩] := rfl
  have hfd : ∀ t : ℤ,
      fireDueEmoteTimersOn (mapSet s.playerEmotes pid ⟨"jump", t0, 1500, 3⟩)
        (s.pendingTimers ++ [⟨t0 + 1500, pid⟩]) t =
      if t0 + 1500 ≤ t then
        mapDelete (fireDueEmoteTimersOn
          (mapSet s.playerEmotes pid ⟨"jump", t0, 1500, 3⟩) s.pendingTimers t) pid
      else fireDueEmoteTimersOn
        (mapSet s.playerEmotes pid ⟨"jump", t0, 1500, 3⟩) s.pendingTimers t := by
    intro t
    unfold fireDueEmoteTimersOn
    rw [List.foldl_append]
    rfl
  refine ⟨by rw [hem]; exact mapGet_mapSet_self _ _ _, ?_, ?_⟩
  · intro t ht
    unfold isActiveAt
    rw [hem, htm, hfd t, if_neg (by omega : ¬ t0 + 1500 ≤ t),
        fireDue_mapGet_of_not_mem _ _ _ _ hto, mapGet_mapSet_self]
    rfl
  · unfold isActiveAt
    rw [hem, htm, hfd (t0 + 1500), if_pos (le_refl (t0 + 1500)),
        mapGet_mapDelete_self]

/-- C4 witness: a jump emote at t0 = 0 in the fresh state is stored with
duration 1500, active at 1499 and inactive at 1500. -/
theorem claim_C4_witness :
    mapGet (handlePlayerEmote (initialState 800 600) 0 "p1" "jump").playerEmotes "p1"
        = some ⟨"jump", 0, 1500, 3⟩ ∧
    isActiveAt (handlePlayerEmote (initialState 800 600) 0 "p1" "jump")
        "p1" "jump" 1499 = true ∧
    isActiveAt (handlePlayerEmote (initialState 800 600) 0 "p1" "jump")
        "p1" "jump" 1500 = false := by
  have h := claim_C4_amended (initialState 800 600) "p1" 0
    (by intro tm htm; simp [initialState] at htm)
  exact ⟨h.1, h.2.1 1499 (by omega), h.2.2⟩

/-- C8: for a player inside the viewport margin, drawing resolves west to
the east frame set, draws the frame at index animationFrame mod frameCount
of the resolved set (mirrored exactly when facing west), and skips the
player with no draw call and no state change whenever the avatar asset is
missing or raw, the resolved frame list is absent or empty, or the selected
frame handle is not loaded (drawPlayer is a pure function, so a skip changes
nothing). -/
theorem claim_C8 :
    (∀ p : Player, p.facing = "west" → resolvedDirection p = "east") ∧
    (∀ (s : GameState) (p : Player) (nm : String) (imgs : AvatarImages)
        (frames : List Frame),
      ¬ playerOutOfView s p →
      mapGet s.avatars p.avatar = some (.loaded nm imgs) →
      dirLookup imgs (resolvedDirection p) = some frames →
      frames.length ≠ 0 →
      (frames.getD (p.animationFrame % frames.length) defaultFrame).complete = true →
      (drawPlayer s p).frameUsed
          = some (frames.getD (p.animationFrame % frames.length) defaultFrame) ∧
      (p.facing = "west" → (drawPlayer s p).flippedUsed = some true)) ∧
    (∀ (s : GameState) (p : Player),
      (mapGet s.avatars p.avatar = none ∨
       (∃ a, mapGet s.avatars p.avatar = some (.raw a)) ∨
       (∃ nm imgs, mapGet s.avatars p.avatar = some (.loaded nm imgs) ∧
          dirLookup imgs (resolvedDirection p) = none) ∨
       (∃ nm imgs frames, mapGet s.avatars p.avatar = some (.loaded nm imgs) ∧
          dirLookup imgs (resolvedDirection p) = some frames ∧
          (frames.length = 0 ∨
            (frames.getD (p.animationFrame % frames.length) defaultFrame).complete
              = false))) →
      drawPlayer s p = .skipped) := by
  refine ⟨?_, ?_, ?_⟩
  · intro p hw
    unfold resolvedDirection
    rw [if_pos hw]
  · intro s p nm imgs frames hv hav hdir hlen hcomp
    unfold drawPlayer
    rw [if_neg hv, hav, drawPlayerFromAvatar_loaded, hdir, drawPlayerFromImages_some]
    unfold drawPlayerFromFrames
    rw [if_neg hlen]
    simp only [hcomp]
    rw [if_neg (by decide : ¬ (true = false))]
    by_cases hw : p.facing = "west"
    · rw [if_pos hw]
      exact ⟨rfl, fun _ => rfl⟩
    · rw [if_neg hw]
      exact ⟨rfl, fun h => absurd h hw⟩
  · intro s p hcase
    unfold drawPlayer
    by_cases hv : playerOutOfView s p
    · rw [if_pos hv]
    · rw [if_neg hv]
      rcases hcase with h | ⟨a, h⟩ | ⟨nm, imgs, h, hd⟩ | ⟨nm, imgs, frames, h, hd, hrest⟩
      · rw [h, drawPlayerFromAvatar_none]
      · rw [h, drawPlayerFromAvatar_raw]
      · rw [h, drawPlayerFromAvatar_loaded, hd, drawPlayerFromImages_none]
      · rw [h, drawPlayerFromAvatar_loaded, hd, drawPlayerFromImages_some]
        unfold drawPlayerFromFrames
        rcases hrest with hlen | hcomp
        · rw [if_pos hlen]
        · by_cases hlen : frames.length = 0
          · rw [if_pos hlen]
          · rw [if_neg hlen]
            dsimp only
            rw [if_pos hcomp]

/-- A loaded east frame, an avatar with only east frames populated, and a
west-facing player using it. -/
def eastFrame : Frame := ⟨true, 32, 64⟩

def westOnlyImages : AvatarImages := ⟨[], [], [eastFrame]⟩

def westPlayer : Player := ⟨"p1", "Praise", 100, 100, "west", "adventurer", 5⟩

def westState : GameState :=
  { initialState 800 600 with
      players := [("p1", westPlayer)],
      avatars := [("adventurer", .loaded "adventurer" westOnlyImages)] }

/-- C8 witness: the west-facing player whose avatar has only east frames is
drawn mirrored with the east frame at index 5 mod 1. -/
theorem claim_C8_witness :
    (drawPlayer westState westPlayer).frameUsed = some eastFrame ∧
    (drawPlayer westState westPlayer).flippedUsed = some true := by
  have hv : ¬ playerOutOfView westState westPlayer := by
    norm_num [playerOutOfView, worldToScreen, westState, westPlayer, initialState]
  have h := claim_C8.2.1 westState westPlayer "adventurer" westOnlyImages [eastFrame]
    hv rfl rfl (by decide) rfl
  exact ⟨by rw [h.1]; rfl, h.2 rfl⟩

/-- C9: with the connection open, the click handler emits a move message
exactly when the clicked screen point maps through screenToWorld (at the
current camera offset) into the closed world box; the message carries the
rounded world target, and an out-of-bounds click produces nothing (the
handler is a pure function of the state, so no state changes either way). -/
theorem claim_C9 (s : GameState) (screenX screenY : ℚ) (wsOpen : Bool)
    (hws : wsOpen = true) :
    ((handleCanvasClick s wsOpen screenX screenY).isSome ↔
      (0 ≤ (screenToWorld s screenX screenY).1 ∧
       (screenToWorld s screenX screenY).1 ≤ s.worldWidth ∧
       0 ≤ (screenToWorld s screenX screenY).2 ∧
       (screenToWorld s screenX screenY).2 ≤ s.worldHeight)) ∧
    ((0 ≤ (screenToWorld s screenX screenY).1 ∧
      (screenToWorld s screenX screenY).1 ≤ s.worldWidth ∧
      0 ≤ (screenToWorld s screenX screenY).2 ∧
      (screenToWorld s screenX screenY).2 ≤ s.worldHeight) →
      handleCanvasClick s wsOpen screenX screenY =
        some ⟨jsRound (screenToWorld s screenX screenY).1,
              jsRound (screenToWorld s screenX screenY).2⟩) ∧
    (¬ (0 ≤ (screenToWorld s screenX screenY).1 ∧
        (screenToWorld s screenX screenY).1 ≤ s.worldWidth ∧
        0 ≤ (screenToWorld s screenX screenY).2 ∧
        (screenToWorld s screenX screenY).2 ≤ s.worldHeight) →
      handleCanvasClick s wsOpen screenX screenY = none) := by
  subst hws
  by_cases hb : 0 ≤ (screenToWorld s screenX screenY).1 ∧
      (screenToWorld s screenX screenY).1 ≤ s.worldWidth ∧
      0 ≤ (screenToWorld s screenX screenY).2 ∧
      (screenToWorld s screenX screenY).2 ≤ s.worldHeight
  · have hcc : handleCanvasClick s true screenX screenY =
        some ⟨jsRound (screenToWorld s screenX screenY).1,
              jsRound (screenToWorld s screenX screenY).2⟩ := by
      simp only [handleCanvasClick, sendMoveCommandXY]
      rw [if_pos hb]
      simp
    refine ⟨?_, fun _ => hcc, fun hnb => absurd hb hnb⟩
    rw [hcc]
    simp [hb]
  · have hcc : handleCanvasClick s true screenX screenY = none := by
      simp only [handleCanvasClick, sendMoveCommandXY]
      rw [if_neg hb]
    refine ⟨?_, fun hbb => absurd hbb hb, fun _ => hcc⟩
    rw [hcc]
    simp [hb]

/-- C9 witness: a click that maps to the world point (10, 20) with the
socket open emits a move message with the rounded target (10, 20). -/
theorem claim_C9_witness :
    handleCanvasClick (initialState 800 600) true 10 20 = some ⟨10, 20⟩ := by
  have h := (claim_C9 (initialState 800 600) 10 20 true rfl).2.1
    (by norm_num [screenToWorld, initialState])
  rw [h]
  norm_num [jsRound, screenToWorld, initialState]

end GameJS
